import Mathlib

/-!
Verification development for the RealtimeAIVoiceChat streaming voice pipeline.

The definitions below are a shallow embedding of the Python sources:
  - `src/core/vad.py`      (VADProcessor, audio_resampler)
  - `src/core/pipeline.py` (VoicePipeline: ingest, agent driver, queues)
  - `src/core/stt.py`      (OpenAISTT.stt_stream, GroqSTT.stt_stream)

Machine int16 samples are modelled as `Int`, raw bytes as `Nat` (each < 256),
text as `List Char`.  External effectful collaborators (the scipy polyphase
resampler, the silero VAD model, the TTS and agent streams) are passed in as
explicit parameters or oracle inputs, exactly at the point where the Python
code awaits them.
-/

/-- One speech range returned by the silero VAD oracle
(a dict with keys start and end, in samples). -/
structure SpeechRange where
  start : Nat
  stop : Nat
  deriving DecidableEq, Repr

/-- The derived sample-count attributes computed in `VADProcessor.__init__`:
`_min_audio_samples = min_continuous_speech_s * audio_sample_rate`,
`_max_audio_buffer = max_continuous_speech_s * audio_sample_rate`,
`_min_silence_samples = min_silence_duration_ms * (audio_sample_rate // 1000)`. -/
structure VADConfig where
  minAudioSamples : Nat
  maxAudioBuffer : Nat
  minSilenceSamples : Nat
  deriving DecidableEq, Repr

/-- `VADProcessor.__init__` in `src/core/vad.py` (integer parameter case):
derives the three sample counts from the constructor arguments. -/
def VADConfig.ofParams (audioSampleRate maxContinuousSpeechS minContinuousSpeechS
    minSilenceDurationMs : Nat) : VADConfig :=
  { minAudioSamples := minContinuousSpeechS * audioSampleRate
    maxAudioBuffer := maxContinuousSpeechS * audioSampleRate
    minSilenceSamples := minSilenceDurationMs * (audioSampleRate / 1000) }

/-- Python slice `buf[s:e]` on a list. -/
def pySlice (buf : List Int) (s e : Nat) : List Int :=
  (buf.drop s).take (e - s)

/-- `np.concatenate` of the per-range slices `self._audio_buffer[_start:_end]`
collected in the speech_samples loop of `process_audio_chunk`. -/
def concatSpeechSamples (buf : List Int) (ts : List SpeechRange) : List Int :=
  (ts.map (fun t => pySlice buf t.start t.stop)).flatten

/-- The body of `VADProcessor.process_audio_chunk` (src/core/vad.py, lines
148-215), after the resampling step: `chunk` is the freshly resampled audio and
`speechTimestamps` is the VAD oracle output on the concatenated buffer.
Returns the new `_audio_buffer` and the optionally emitted segment samples
(`audio_chunk.audio` of the returned chunk, else none). -/
def processAudioChunk (cfg : VADConfig) (buffer chunk : List Int)
    (speechTimestamps : List SpeechRange) : List Int × Option (List Int) :=
  -- buffer ++ chunk is the concatenated _audio_buffer after np.concatenate
  if (buffer ++ chunk).length < cfg.minAudioSamples then
    (buffer ++ chunk, none)
  else
    match speechTimestamps with
    | [] =>
      if cfg.maxAudioBuffer ≤ (buffer ++ chunk).length then
        -- sliding window: samples_to_keep = int(size * 0.9);
        -- buffer = buffer[-samples_to_keep:] (Python keeps the whole buffer
        -- when samples_to_keep = 0, since buf[-0:] is buf)
        if (buffer ++ chunk).length * 9 / 10 = 0 then (buffer ++ chunk, none)
        else
          ((buffer ++ chunk).drop
            ((buffer ++ chunk).length - (buffer ++ chunk).length * 9 / 10), none)
      else (buffer ++ chunk, none)
    | r :: rs =>
      -- speech_start_sample = r.start; speech_end_sample = (rs.getLastD r).stop;
      -- speech_samples = concatSpeechSamples _ (r :: rs);
      -- silence_samples = length - speech_end_sample
      if cfg.minSilenceSamples ≤ (buffer ++ chunk).length - (rs.getLastD r).stop then
        ((buffer ++ chunk).drop (rs.getLastD r).stop,
         some (concatSpeechSamples (buffer ++ chunk) (r :: rs)))
      else if cfg.maxAudioBuffer ≤ (buffer ++ chunk).length then
        -- new buffer = buffer[speech_start_sample:]; emit only when its
        -- length did not change
        if (buffer ++ chunk).length = ((buffer ++ chunk).drop r.start).length then
          (([] : List Int), some (concatSpeechSamples (buffer ++ chunk) (r :: rs)))
        else ((buffer ++ chunk).drop r.start, none)
      else (buffer ++ chunk, none)

example :
    processAudioChunk ⟨2, 4, 3⟩ [10, 11, 12, 13] [] [⟨1, 3⟩]
      = ([11, 12, 13], none) := by decide

example :
    processAudioChunk ⟨2, 4, 3⟩ [10, 11, 12, 13] [] [⟨0, 4⟩]
      = ([], some [10, 11, 12, 13]) := by decide

example :
    processAudioChunk ⟨2, 10, 2⟩ [10, 11, 12, 13] [] [⟨0, 1⟩]
      = ([11, 12, 13], some [10]) := by decide

/-- `np.max` over a numpy array: raises `ValueError` on a zero-size array
(this is the exception text numpy produces). -/
def npMax (l : List Int) : Except String Int :=
  match l with
  | [] => .error "zero-size array to reduction operation maximum which has no identity"
  | x :: xs => .ok (xs.foldl (fun a b => max a b) x)

/-- `np.frombuffer(audio_bytes, dtype=np.int16)`: little-endian signed 16-bit
decoding of a byte list whose length is a multiple of two. -/
def bytesToInt16 : List Nat → List Int
  | b0 :: b1 :: rest =>
    (let u := b1 * 256 + b0
     if u < 32768 then (u : Int) else (u : Int) - 65536) :: bytesToInt16 rest
  | _ => []

/-- `np.frombuffer` raises on a byte count that is not a multiple of the
element size; otherwise it decodes the int16 samples. -/
def npFrombufferInt16 (bs : List Nat) : Except String (List Int) :=
  if bs.length % 2 = 0 then .ok (bytesToInt16 bs)
  else .error "buffer size must be a multiple of element size"

/-- `np.clip(x, -32768, 32767)` on one sample. -/
def clipInt16 (v : Int) : Int := min 32767 (max (-32768) v)

/-- `audio_resampler` (src/core/vad.py, lines 55-80).  The scipy call
`resample_poly(audio, 1, ratio)` is an external numeric routine and is passed
in as the parameter `resamplePoly`.  Faithful structure: decode the bytes,
silent-input short-circuit via `np.max(np.abs(...))` (which raises on an empty
array), else resample and clip. -/
def audio_resampler (resamplePoly : List Int → Nat → List Int)
    (audioBytes : List Nat) (resampleRatio : Nat) : Except String (List Int) :=
  match npFrombufferInt16 audioBytes with
  | .error e => .error e
  | .ok audioInt16 =>
    match npMax (audioInt16.map (fun v => |v|)) with
    | .error e => .error e
    | .ok m =>
      if m = 0 then
        -- expect_len = int(np.ceil(len(audio_int16) / resample_ratio))
        .ok (List.replicate ((audioInt16.length + resampleRatio - 1) / resampleRatio) 0)
      else
        .ok ((resamplePoly audioInt16 resampleRatio).map clipInt16)

/-- `VADProcessor.process_audio_chunk` including its try/except
(src/core/vad.py, lines 148-219): on any exception the audio buffer is reset
to the empty array and the exception is re-raised.  The error value carries
the exception text and the post-error buffer. -/
def processAudioChunkCaught (resamplePoly : List Int → Nat → List Int)
    (cfg : VADConfig) (resampleRatio : Nat) (buffer : List Int)
    (audioBytes : List Nat) (speechTimestamps : List SpeechRange) :
    Except (String × List Int) (List Int × Option (List Int)) :=
  match audio_resampler resamplePoly audioBytes resampleRatio with
  | .error e => .error (e, ([] : List Int))
  | .ok chunk => .ok (processAudioChunk cfg buffer chunk speechTimestamps)

example : (audio_resampler (fun l _ => l) [] 3).isOk = false := by rfl
example : audio_resampler (fun l _ => l) [0, 0, 0, 0] 2 = .ok [0] := by rfl

/-- `VoicePipeline._MAX_QUEUE_SIZE` (src/core/pipeline.py, line 46). -/
def MAX_QUEUE_SIZE : Nat := 60

/-- `VoicePipeline._add_queue_no_wait` (src/core/pipeline.py, lines 179-184):
`asyncio.Queue.put_nowait` appends unless the queue already holds `cap` items;
on `QueueFull` the item is dropped with a warning and no error reaches the
caller. -/
def addQueueNoWait (cap : Nat) (q : List α) (x : α) : List α :=
  if cap ≤ q.length then q else q ++ [x]

/-- `AudioChunk` as built by the ingest stage (src/core/typing.py and
src/core/pipeline.py, line 256).  The float timestamp is modelled as a
rational number of seconds. -/
structure AudioFrame where
  flag : Nat
  timestamp : ℚ
  audio : List Nat
  deriving DecidableEq, Repr

/-- Big-endian interpretation of a byte list, as `struct.unpack("!HQ", ...)`
reads its fixed-width fields. -/
def beNat (bs : List Nat) : Nat :=
  bs.foldl (fun a b => a * 256 + b) 0

/-- The `flag` field of `struct.unpack("!HQ", raw_bytes[:10])`: the first two
bytes, big-endian. -/
def parseFlag (raw : List Nat) : Nat := beNat (raw.take 2)

/-- The `timestamp_ms` field of `struct.unpack("!HQ", raw_bytes[:10])`: bytes
two through nine, big-endian. -/
def parseTimestampMs (raw : List Nat) : Nat := beNat ((raw.drop 2).take 8)

/-- `datetime.fromtimestamp(timestamp_ms // 1_000).timestamp()` at
src/core/pipeline.py, lines 252-253: floor-divide the millisecond timestamp by
1000 and round-trip through `datetime`, which returns the same whole number of
seconds as a float. -/
def codeFrameTimestamp (timestampMs : Nat) : ℚ := ((timestampMs / 1000 : Nat) : ℚ)

/-- Follows the words of the spec (section 4.1): an AudioFrame timestamp is
`timestamp_ms / 1000`, seconds as a double, preserving sub-second precision.
Stated only for comparison with `codeFrameTimestamp`. -/
def specFrameTimestamp (timestampMs : Nat) : ℚ := (timestampMs : ℚ) / 1000

/-- The content of a text message, after `json.loads(data["text"])` and the
`data["type"]` dispatch at src/core/pipeline.py, lines 259-265: a control
message, some other valid JSON object with a type field, or a string that is
not valid JSON (on which `json.loads` raises). -/
inductive TextContent where
  | ctrlTtsStart
  | ctrlTtsEnd
  | otherType
  | malformedJson
  deriving DecidableEq, Repr

/-- One message received from the websocket by `process_incoming_data`. -/
inductive ClientMsg where
  | binary (raw : List Nat)
  | text (c : TextContent)
  deriving DecidableEq, Repr

/-- The mutable state touched by the ingest stage: the `is_tts_playing` flag,
the `incoming_queue` (q1), and whether an exception has escaped the read loop
(after which the task has terminated and processes nothing further). -/
structure IngestState where
  isTtsPlaying : Bool
  q1 : List AudioFrame
  crashed : Bool
  deriving DecidableEq, Repr

/-- Initial ingest state: `is_tts_playing = False`, empty queue, task alive. -/
def initIngestState : IngestState := ⟨false, [], false⟩

/-- One iteration of the `process_incoming_data` read loop
(src/core/pipeline.py, lines 234-265) on one received message.  A binary
message is considered only when the TTS-playing flag is clear; it is dropped
when shorter than `header_bytes`, else the 10-byte header is parsed and an
AudioFrame is offered to q1.  A text message is parsed as JSON: `tts_start`
and `tts_end` toggle the flag, other types do nothing, and a JSON parse error
escapes the loop (the surrounding try/except logs it and the task ends, which
we record in `crashed`). -/
def ingestStep (headerBytes : Nat) (st : IngestState) (m : ClientMsg) : IngestState :=
  if st.crashed then st
  else
    match m with
    | .binary raw =>
      if st.isTtsPlaying = false then
        if raw.length < headerBytes then st
        else
          let frame : AudioFrame :=
            { flag := parseFlag raw
              timestamp := codeFrameTimestamp (parseTimestampMs raw)
              audio := raw.drop 10 }
          { st with q1 := addQueueNoWait MAX_QUEUE_SIZE st.q1 frame }
      else st
    | .text c =>
      match c with
      | .ctrlTtsStart => { st with isTtsPlaying := true }
      | .ctrlTtsEnd => { st with isTtsPlaying := false }
      | .otherType => st
      | .malformedJson => { st with crashed := true }

/-- The ingest read loop over a finite message sequence. -/
def ingestRun (headerBytes : Nat) (st : IngestState) (ms : List ClientMsg) : IngestState :=
  ms.foldl (ingestStep headerBytes) st

/-- The most recent tts_start and tts_end control message in a message list:
`some true` when the last control is tts_start, `some false` when it is
tts_end, `none` when no control message occurs.  The accumulator carries the
answer for the part of the list already scanned. -/
def lastTtsCtrlAux (acc : Option Bool) : List ClientMsg → Option Bool
  | [] => acc
  | m :: ms =>
    lastTtsCtrlAux
      (match m with
       | .text .ctrlTtsStart => some true
       | .text .ctrlTtsEnd => some false
       | _ => acc) ms

/-- The most recent TTS control message of a message list. -/
def lastTtsCtrl (ms : List ClientMsg) : Option Bool := lastTtsCtrlAux none ms

example :
    (ingestRun 10 initIngestState
      [.binary [0, 1, 0, 0, 0, 0, 0, 0, 5, 220, 42]]).q1
      = [{ flag := 1, timestamp := 1, audio := [42] }] := by decide

example :
    (ingestRun 10 initIngestState
      [.text .ctrlTtsStart, .binary [0, 1, 0, 0, 0, 0, 0, 0, 5, 220, 42],
       .text .ctrlTtsEnd]).q1 = [] := by decide

example : ingestRun 10 initIngestState [.binary [0, 0, 0]] = initIngestState := by decide

/-- The sentence ending set of `generate_agent_response`
(src/core/pipeline.py, line 371). -/
def isSentenceEnding (c : Char) : Bool :=
  c = '.' || c = '!' || c = '?' || c = '\n'

/-- The rightmost index of a sentence-ending character in the rolling buffer.
The code computes `max(text_buffer.rfind(e) for e in endings if e in buffer)`;
the maximum of the rightmost occurrences of each present ending character is
exactly the rightmost position holding any ending character, which is what we
compute here (none when no ending occurs). -/
def lastEndingIdx : List Char → Option Nat
  | [] => none
  | ch :: cs =>
    match lastEndingIdx cs with
    | some i => some (i + 1)
    | none => if isSentenceEnding ch then some 0 else none

example : lastEndingIdx "Hi there! How".data = some 8 := by decide
example : lastEndingIdx "Hi there".data = none := by decide

/-- Python `str.strip()`: drop leading and trailing whitespace. -/
def pyStrip (l : List Char) : List Char :=
  ((l.dropWhile Char.isWhitespace).reverse.dropWhile Char.isWhitespace).reverse

/-- The typed events that `generate_agent_response` inserts into the response
queue during one turn (`ResponseEventType` values in src/core/pipeline.py).
A speech delta carries the TTS PCM chunk (the code base64-encodes exactly
these bytes before inserting; the encoding is kept abstract). -/
inductive Event where
  | transcriptionText (s : List Char)
  | aiResponseTextStart
  | aiResponseTextDelta (s : List Char)
  | aiResponseTextEnd
  | aiResponseSpeechStart
  | aiResponseSpeechDelta (chunk : List Int)
  | aiResponseSpeechEnd
  deriving DecidableEq, Repr

/-- The per-turn loop state of `generate_agent_response`
(src/core/pipeline.py, lines 370-373): the rolling text buffer and the two
first-chunk flags. -/
structure TurnState where
  textBuffer : List Char
  firstResponseChunk : Bool
  firstSpeechChunk : Bool
  deriving DecidableEq, Repr

/-- The body of `async for chunk in self.agent.generate_stream(...)` for one
agent chunk (src/core/pipeline.py, lines 375-420).  `tts` is the TTS stream
oracle: the PCM chunks `tts_stream` yields for a given text.  Returns the new
state, the events inserted, and the list of texts passed to `tts_stream` (one
invocation per element). -/
def agentChunkStep (tts : List Char → List (List Int)) (st : TurnState)
    (c : List Char) : TurnState × List Event × List (List Char) :=
  let B := st.textBuffer ++ c
  let startEvs := if st.firstResponseChunk then [Event.aiResponseTextStart] else []
  let fr := if st.firstResponseChunk then false else st.firstResponseChunk
  match lastEndingIdx B with
  | none => (⟨B, fr, st.firstSpeechChunk⟩, startEvs, [])
  | some i =>
    let completeText := B.take (i + 1)
    let rest := B.drop (i + 1)
    if completeText.isEmpty then
      (⟨rest, fr, st.firstSpeechChunk⟩, startEvs, [])
    else
      let speechEvs := if st.firstSpeechChunk then [Event.aiResponseSpeechStart] else []
      let speechDeltas := (tts completeText).map Event.aiResponseSpeechDelta
      (⟨rest, fr, false⟩,
       startEvs ++ speechEvs ++ [Event.aiResponseTextDelta completeText] ++ speechDeltas,
       [completeText])

/-- The whole `async for` loop over the agent chunk sequence, accumulating
events and TTS invocations in order. -/
def runTurnChunks (tts : List Char → List (List Int)) (st : TurnState) :
    List (List Char) → TurnState × List Event × List (List Char)
  | [] => (st, [], [])
  | c :: cs =>
    let r1 := agentChunkStep tts st c
    let r2 := runTurnChunks tts r1.1 cs
    (r2.1, r1.2.1 ++ r2.2.1, r1.2.2 ++ r2.2.2)

/-- One turn input for the agent driver: the transcript dequeued from the
transcription queue, the chunks its agent stream yields, and whether the
stream (agent or a TTS call inside the loop, after those chunks) raises. -/
structure TurnInput where
  transcript : List Char
  chunks : List (List Char)
  agentRaises : Bool
  deriving DecidableEq, Repr

/-- One iteration of the `generate_agent_response` while-loop for one dequeued
Segment (src/core/pipeline.py, lines 359-435): emit the full-transcript event,
run the agent chunk loop, and - only when no exception occurred - flush the
remaining buffer (if nonempty after strip) and emit the two end events.  When
the stream raises, the exception propagates out of the turn body; the events
already inserted stay in the queue and the third component is false. -/
def runAgentTurn (tts : List Char → List (List Int)) (t : TurnInput) :
    List Event × List (List Char) × Bool :=
  let r := runTurnChunks tts ⟨[], true, true⟩ t.chunks
  let headEv := Event.transcriptionText t.transcript
  if t.agentRaises then (headEv :: r.2.1, r.2.2, false)
  else
    let flushTail :=
      if (pyStrip r.1.textBuffer).isEmpty then ([], [])
      else
        ([Event.aiResponseTextDelta r.1.textBuffer]
           ++ (tts r.1.textBuffer).map Event.aiResponseSpeechDelta,
         [r.1.textBuffer])
    (headEv :: r.2.1 ++ flushTail.1 ++ [Event.aiResponseTextEnd, Event.aiResponseSpeechEnd],
     r.2.2 ++ flushTail.2, true)

/-- The `generate_agent_response` task over a sequence of dequeued Segments
(src/core/pipeline.py, lines 344-441).  The try/except encloses the whole
while-loop, so an exception raised inside one turn leaves the loop: the
handler logs it and the coroutine returns, processing no further Segment. -/
def generateAgentResponse (tts : List Char → List (List Int)) :
    List TurnInput → List Event
  | [] => []
  | t :: rest =>
    let r := runAgentTurn tts t
    if r.2.2 then r.1 ++ generateAgentResponse tts rest else r.1

/-- `GroqSTT.stt_stream` (src/core/stt.py, lines 190-207): awaits the full
transcription and yields it as the single chunk of the generator. -/
def groqSttStream (fullTranscript : String) : List String :=
  [fullTranscript]

/-- `OpenAISTT.stt_stream` (src/core/stt.py, lines 81-116): when the model is
whisper-1 it awaits the full transcription and yields it, but does not return;
control falls through to the streaming transcription request, whose delta
chunks (`streamedDeltas`, the oracle for that second request) are then also
yielded. -/
def openaiSttStream (model : String) (fullTranscript : String)
    (streamedDeltas : List String) : List String :=
  (if model = "whisper-1" then [fullTranscript] else []) ++ streamedDeltas

/-- One operation on an inter-stage queue: a producer insert through
`_add_queue_no_wait`, or a consumer `get`. -/
inductive QOp (α : Type) where
  | enq (x : α)
  | deq
  deriving DecidableEq, Repr

/-- Effect of one queue operation on the pair (queue contents, items the
consumer has observed, in order).  A `get` on an empty queue suspends until
its timeout and observes nothing. -/
def queueStep (cap : Nat) (s : List α × List α) (op : QOp α) : List α × List α :=
  match op with
  | .enq x => (addQueueNoWait cap s.1 x, s.2)
  | .deq =>
    match s.1 with
    | [] => s
    | y :: ys => (ys, s.2 ++ [y])

/-- A finite history of queue operations, starting from a given state. -/
def queueRun (cap : Nat) (s : List α × List α) (ops : List (QOp α)) : List α × List α :=
  ops.foldl (queueStep cap) s

/-- The items the producer offered, in order. -/
def enqueuedItems (ops : List (QOp α)) : List α :=
  ops.filterMap (fun op => match op with | .enq x => some x | .deq => none)

example :
    queueRun 2 (([] : List Nat), []) [.enq 1, .enq 2, .enq 3, .deq, .enq 4, .deq, .deq]
      = ([], [1, 2, 4]) := by decide


/-- C1 counterexample: a call in which VAD detects speech starting after
sample 0, the trailing silence (one sample) is below the three-sample
minimum, and the four-sample buffer is at the four-sample cap.  The claim
says every such call emits a Segment; the code only trims the buffer to the
first speech start and returns None, because the `return audio_chunk` of the
force-flush branch sits inside the `prev_length == size` test. -/
theorem vad_force_flush_no_emit_counterexample :
    2 ≤ ([10, 11, 12, 13] : List Int).length ∧
    ([10, 11, 12, 13] : List Int).length - 3 < 3 ∧
    4 ≤ ([10, 11, 12, 13] : List Int).length ∧
    (processAudioChunk ⟨2, 4, 3⟩ [10, 11, 12, 13] [] [⟨1, 3⟩]).2 = none ∧
    (processAudioChunk ⟨2, 4, 3⟩ [10, 11, 12, 13] [] [⟨1, 3⟩]).1 = [11, 12, 13] := by
  decide

/-- C1 (amended): on the buffer-full force-flush path (speech detected,
trailing silence below the minimum, buffer at or above the cap), the call
discards the buffer up to the first speech start; only when that does not
shrink the buffer does it clear the buffer entirely and emit a Segment whose
samples are the concatenation of all VAD ranges - otherwise no Segment is
emitted on that call. -/
theorem vad_force_flush_emits_only_when_no_shrink (cfg : VADConfig)
    (buffer chunk : List Int) (r : SpeechRange) (rs : List SpeechRange)
    (hmin : cfg.minAudioSamples ≤ (buffer ++ chunk).length)
    (hsil : (buffer ++ chunk).length - (rs.getLastD r).stop < cfg.minSilenceSamples)
    (hfull : cfg.maxAudioBuffer ≤ (buffer ++ chunk).length) :
    processAudioChunk cfg buffer chunk (r :: rs) =
      if (buffer ++ chunk).length = ((buffer ++ chunk).drop r.start).length then
        (([] : List Int), some (concatSpeechSamples (buffer ++ chunk) (r :: rs)))
      else ((buffer ++ chunk).drop r.start, none) := by
  have hbuf : ¬ (buffer ++ chunk).length < cfg.minAudioSamples := Nat.not_lt.mpr hmin
  have hs : ¬ cfg.minSilenceSamples ≤ (buffer ++ chunk).length - (rs.getLastD r).stop :=
    Nat.not_le.mpr hsil
  simp only [processAudioChunk, if_neg hbuf, if_neg hs, if_pos hfull]

/-- Witness for `vad_force_flush_emits_only_when_no_shrink` at a concrete
whole-buffer-speech input, where the emission does happen. -/
theorem vad_force_flush_emits_only_when_no_shrink_witness :
    processAudioChunk ⟨2, 4, 3⟩ [10, 11, 12, 13] [] [⟨0, 4⟩] =
      if (([10, 11, 12, 13] : List Int) ++ []).length
          = ((([10, 11, 12, 13] : List Int) ++ []).drop 0).length then
        (([] : List Int),
         some (concatSpeechSamples (([10, 11, 12, 13] : List Int) ++ []) [⟨0, 4⟩]))
      else ((([10, 11, 12, 13] : List Int) ++ []).drop 0, none) :=
  vad_force_flush_emits_only_when_no_shrink ⟨2, 4, 3⟩ [10, 11, 12, 13] [] ⟨0, 4⟩ []
    (by decide) (by decide) (by decide)

/-- C3 counterexample: on the trailing-silence completion path the code emits
the concatenated VAD ranges, which here form a one-sample segment although
`min_speech_s x sr` is two samples, and the ten-sample cap is not reached, so
this is not a forced flush. -/
theorem vad_segment_below_min_counterexample :
    (processAudioChunk ⟨2, 10, 2⟩ [10, 11, 12, 13] [] [⟨0, 1⟩]).2 = some [10] ∧
    ([10] : List Int).length < 2 ∧
    ([10, 11, 12, 13] : List Int).length < 10 ∧
    2 ≤ ([10, 11, 12, 13] : List Int).length ∧
    2 ≤ ([10, 11, 12, 13] : List Int).length - 1 := by
  decide

/-- C3 (amended): every Segment the per-frame procedure emits consists of the
concatenation of the VAD speech ranges, and emission happens only when the
buffer (not the segment) holds at least `min_speech_s x sr` samples; the
segment itself can be shorter than `min_speech_s x sr`, even on the
trailing-silence completion path. -/
theorem vad_emitted_segment_shape (cfg : VADConfig) (buffer chunk : List Int)
    (ts : List SpeechRange) (newBuf seg : List Int)
    (h : processAudioChunk cfg buffer chunk ts = (newBuf, some seg)) :
    cfg.minAudioSamples ≤ (buffer ++ chunk).length ∧
    seg = concatSpeechSamples (buffer ++ chunk) ts := by
  by_cases hlen : (buffer ++ chunk).length < cfg.minAudioSamples
  · simp only [processAudioChunk, if_pos hlen] at h
    exact absurd h (by simp)
  · refine ⟨Nat.le_of_not_lt hlen, ?_⟩
    cases ts with
    | nil =>
      simp only [processAudioChunk, if_neg hlen] at h
      split at h
      · split at h <;> simp_all
      · simp_all
    | cons r rs =>
      simp only [processAudioChunk, if_neg hlen] at h
      split at h
      · injection h with h1 h2; injection h2 with h2; exact h2.symm
      · split at h
        · split at h
          · injection h with h1 h2; injection h2 with h2; exact h2.symm
          · simp_all
        · simp_all

/-- Witness for `vad_emitted_segment_shape` at the trailing-silence emission
of a concrete input. -/
theorem vad_emitted_segment_shape_witness :
    (⟨2, 10, 2⟩ : VADConfig).minAudioSamples
      ≤ (([10, 11, 12, 13] : List Int) ++ []).length ∧
    ([10] : List Int) = concatSpeechSamples (([10, 11, 12, 13] : List Int) ++ []) [⟨0, 1⟩] :=
  vad_emitted_segment_shape ⟨2, 10, 2⟩ [10, 11, 12, 13] [] [⟨0, 1⟩]
    [11, 12, 13] [10] (by decide)

/-- A binary message received while the TTS-playing flag is set (or after the
task has died) leaves the ingest state untouched: the `if "bytes" in data and
self.is_tts_playing is False` guard fails. -/
theorem ingestStep_binary_skip (hb : Nat) (st : IngestState) (b : List Nat)
    (h : st.isTtsPlaying = true ∨ st.crashed = true) :
    ingestStep hb st (.binary b) = st := by
  unfold ingestStep
  rcases h with h | h
  · simp [h]
  · simp [h]

/-- A binary message never changes the TTS-playing flag or the crash state. -/
theorem ingestStep_binary_flags (hb : Nat) (st : IngestState) (b : List Nat) :
    (ingestStep hb st (.binary b)).isTtsPlaying = st.isTtsPlaying ∧
    (ingestStep hb st (.binary b)).crashed = st.crashed := by
  rcases st with ⟨fl, q1, cr⟩
  cases fl <;> cases cr <;> by_cases hl : b.length < hb <;> simp [ingestStep, hl]

/-- When the most recent TTS control message seen so far is tts_start, the
ingest state after processing the remaining messages has the TTS-playing flag
set, unless the task has died (after which the flag is frozen). -/
theorem ingestRun_tts_on (hb : Nat) (ms : List ClientMsg) :
    ∀ (st : IngestState) (acc : Option Bool),
      (acc = some true → st.isTtsPlaying = true ∨ st.crashed = true) →
      lastTtsCtrlAux acc ms = some true →
      (ingestRun hb st ms).isTtsPlaying = true ∨ (ingestRun hb st ms).crashed = true := by
  induction ms with
  | nil =>
    intro st acc hinv hlast
    simp only [lastTtsCtrlAux] at hlast
    simpa [ingestRun] using hinv hlast
  | cons m ms ih =>
    intro st acc hinv hlast
    have hrun : ingestRun hb st (m :: ms) = ingestRun hb (ingestStep hb st m) ms := rfl
    rw [hrun]
    cases m with
    | binary b =>
      refine ih (ingestStep hb st (.binary b)) acc ?_ hlast
      intro hacc
      rcases hinv hacc with hf | hc
      · exact Or.inl ((ingestStep_binary_flags hb st b).1.trans hf)
      · exact Or.inr ((ingestStep_binary_flags hb st b).2.trans hc)
    | text c =>
      cases c with
      | ctrlTtsStart =>
        refine ih _ (some true) ?_ hlast
        intro _
        by_cases hcr : st.crashed = true
        · right; simp [ingestStep, hcr]
        · left; simp [ingestStep, hcr]
      | ctrlTtsEnd =>
        refine ih _ (some false) ?_ hlast
        intro hacc
        exact absurd hacc (by simp)
      | otherType =>
        refine ih _ acc ?_ hlast
        intro hacc
        have hstep : ingestStep hb st (.text .otherType) = st := by
          unfold ingestStep
          split <;> rfl
        rw [hstep]
        exact hinv hacc
      | malformedJson =>
        refine ih _ acc ?_ hlast
        intro _
        right
        by_cases hcr : st.crashed = true
        · simp [ingestStep, hcr]
        · simp [ingestStep, hcr]

/-- C6: while the TTS-playing flag is set - the most recent control message
before the binary message is tts_start - a binary message is silently
dropped: removing it from the message sequence changes nothing, and in
particular no AudioFrame is enqueued to q1 for it.  This holds for every
interleaving of control and binary messages around it. -/
theorem tts_window_binary_dropped (hb : Nat) (pre post : List ClientMsg) (b : List Nat)
    (h : lastTtsCtrl pre = some true) :
    ingestRun hb initIngestState (pre ++ ClientMsg.binary b :: post) =
      ingestRun hb initIngestState (pre ++ post) ∧
    (ingestStep hb (ingestRun hb initIngestState pre) (ClientMsg.binary b)).q1 =
      (ingestRun hb initIngestState pre).q1 := by
  have hst := ingestRun_tts_on hb pre initIngestState none (by simp) h
  have hskip := ingestStep_binary_skip hb (ingestRun hb initIngestState pre) b hst
  constructor
  · have e1 : ingestRun hb initIngestState (pre ++ ClientMsg.binary b :: post)
        = ingestRun hb (ingestStep hb (ingestRun hb initIngestState pre) (.binary b)) post := by
      simp [ingestRun, List.foldl_append]
    have e2 : ingestRun hb initIngestState (pre ++ post)
        = ingestRun hb (ingestRun hb initIngestState pre) post := by
      simp [ingestRun, List.foldl_append]
    rw [e1, e2, hskip]
  · rw [hskip]

/-- Witness for `tts_window_binary_dropped`: a tts_start control message
followed by a well-formed 11-byte audio frame. -/
theorem tts_window_binary_dropped_witness :
    ingestRun 10 initIngestState
        ([ClientMsg.text .ctrlTtsStart]
          ++ ClientMsg.binary [0, 1, 0, 0, 0, 0, 0, 0, 5, 220, 42] :: []) =
      ingestRun 10 initIngestState ([ClientMsg.text .ctrlTtsStart] ++ []) ∧
    (ingestStep 10 (ingestRun 10 initIngestState [ClientMsg.text .ctrlTtsStart])
        (ClientMsg.binary [0, 1, 0, 0, 0, 0, 0, 0, 5, 220, 42])).q1 =
      (ingestRun 10 initIngestState [ClientMsg.text .ctrlTtsStart]).q1 :=
  tts_window_binary_dropped 10 [ClientMsg.text .ctrlTtsStart] []
    [0, 1, 0, 0, 0, 0, 0, 0, 5, 220, 42] (by decide)

/-- After the ingest task has died, no further message changes its state. -/
theorem ingestRun_of_crashed (hb : Nat) (ms : List ClientMsg) :
    ∀ st : IngestState, st.crashed = true → ingestRun hb st ms = st := by
  induction ms with
  | nil => intro st h; rfl
  | cons m ms ih =>
    intro st h
    have hstep : ingestStep hb st m = st := by
      unfold ingestStep
      rw [if_pos h]
    have hrun : ingestRun hb st (m :: ms) = ingestRun hb (ingestStep hb st m) ms := rfl
    rw [hrun, hstep]
    exact ih st h

/-- C5 counterexample: a malformed JSON text message followed by a well-formed
binary audio message.  The claim says ingest drops the bad message and keeps
reading, so the following binary message would be enqueued; in the code the
`json.loads` exception escapes the read loop and the task ends, so q1 stays
empty - although the same binary message alone does enqueue a frame. -/
theorem malformed_json_counterexample :
    (ingestRun 10 initIngestState
      [ClientMsg.text .malformedJson,
       ClientMsg.binary [0, 1, 0, 0, 0, 0, 0, 0, 5, 220, 42]]).q1 = [] ∧
    (ingestRun 10 initIngestState
      [ClientMsg.binary [0, 1, 0, 0, 0, 0, 0, 0, 5, 220, 42]]).q1 ≠ [] := by
  decide

/-- C5 (amended): a text message whose content is not valid JSON raises inside
the read loop; the task-level handler logs it and `process_incoming_data`
terminates.  The message sequence after it is never read, and the ingest
state is frozen with only the crash flag set. -/
theorem malformed_json_kills_ingest (hb : Nat) (st : IngestState)
    (rest : List ClientMsg) (hcr : st.crashed = false) :
    ingestRun hb st (ClientMsg.text .malformedJson :: rest) =
      { st with crashed := true } := by
  have hstep : ingestStep hb st (.text .malformedJson) = { st with crashed := true } := by
    unfold ingestStep
    rw [if_neg (by simp [hcr])]
  have hrun : ingestRun hb st (ClientMsg.text .malformedJson :: rest)
      = ingestRun hb (ingestStep hb st (.text .malformedJson)) rest := rfl
  rw [hrun, hstep]
  exact ingestRun_of_crashed hb rest _ rfl

/-- Witness for `malformed_json_kills_ingest` at the initial state with one
pending binary message. -/
theorem malformed_json_kills_ingest_witness :
    ingestRun 10 initIngestState
        (ClientMsg.text .malformedJson
          :: [ClientMsg.binary [0, 1, 0, 0, 0, 0, 0, 0, 5, 220, 42]]) =
      { initIngestState with crashed := true } :=
  malformed_json_kills_ingest 10 initIngestState
    [ClientMsg.binary [0, 1, 0, 0, 0, 0, 0, 0, 5, 220, 42]] rfl

/-- C4 counterexample: an 11-byte binary message carrying timestamp_ms = 1500.
The code floor-divides by 1000 before the datetime round-trip, producing a
whole-second timestamp of 1, whereas the claim requires 1500 / 1000 = 3 / 2
seconds with sub-second precision preserved. -/
theorem frame_timestamp_subsecond_counterexample :
    parseTimestampMs [0, 1, 0, 0, 0, 0, 0, 0, 5, 220, 42] = 1500 ∧
    (ingestRun 10 initIngestState
        [ClientMsg.binary [0, 1, 0, 0, 0, 0, 0, 0, 5, 220, 42]]).q1 =
      [{ flag := 1, timestamp := 1, audio := [42] }] ∧
    specFrameTimestamp 1500 = 3 / 2 ∧
    codeFrameTimestamp 1500 ≠ specFrameTimestamp 1500 := by
  refine ⟨by decide, by decide, ?_, ?_⟩
  · norm_num [specFrameTimestamp]
  · norm_num [specFrameTimestamp, codeFrameTimestamp]

/-- C4 (amended): for every binary message of at least 10 bytes received with
the TTS-playing flag clear (task alive, q1 not full), ingest parses the first
10 bytes as a big-endian (uint16 flag, uint64 timestamp_ms) header, takes the
remainder as payload, and enqueues an AudioFrame with exactly those fields
whose timestamp is timestamp_ms floor-divided by 1000 (whole seconds;
sub-second precision is discarded). -/
theorem ingest_binary_header_parse (st : IngestState) (raw : List Nat)
    (hcr : st.crashed = false) (hflag : st.isTtsPlaying = false)
    (hlen : 10 ≤ raw.length) (hq : st.q1.length < MAX_QUEUE_SIZE) :
    ingestStep 10 st (.binary raw) =
      { st with
        q1 := st.q1 ++ [{ flag := parseFlag raw,
                          timestamp := codeFrameTimestamp (parseTimestampMs raw),
                          audio := raw.drop 10 }] } := by
  simp only [ingestStep, addQueueNoWait]
  rw [if_neg (by simp [hcr]), if_pos hflag, if_neg (Nat.not_lt.mpr hlen),
    if_neg (Nat.not_le.mpr hq)]

/-- Witness for `ingest_binary_header_parse` at the initial state and a
concrete 11-byte message. -/
theorem ingest_binary_header_parse_witness :
    ingestStep 10 initIngestState (.binary [0, 1, 0, 0, 0, 0, 0, 0, 5, 220, 42]) =
      { initIngestState with
        q1 := initIngestState.q1
          ++ [{ flag := parseFlag [0, 1, 0, 0, 0, 0, 0, 0, 5, 220, 42],
                timestamp := codeFrameTimestamp
                  (parseTimestampMs [0, 1, 0, 0, 0, 0, 0, 0, 5, 220, 42]),
                audio := [0, 1, 0, 0, 0, 0, 0, 0, 5, 220, 42].drop 10 }] } :=
  ingest_binary_header_parse initIngestState [0, 1, 0, 0, 0, 0, 0, 0, 5, 220, 42]
    rfl rfl (by decide) (by decide)

/-- A sentence-ending index returned by `lastEndingIdx` is a valid index. -/
theorem lastEndingIdx_lt : ∀ (l : List Char) (i : Nat),
    lastEndingIdx l = some i → i < l.length := by
  intro l
  induction l with
  | nil => intro i h; simp [lastEndingIdx] at h
  | cons ch cs ih =>
    intro i h
    unfold lastEndingIdx at h
    rcases hm : lastEndingIdx cs with _ | j
    · rw [hm] at h
      by_cases he : isSentenceEnding ch
      · simp [he] at h
        simp only [List.length_cons]
        omega
      · simp [he] at h
    · rw [hm] at h
      simp at h
      have := ih j hm
      simp [List.length_cons]
      omega

/-- Every event inserted by the per-chunk body is a text start, speech start,
text delta or speech delta - never an end event. -/
theorem agentChunkStep_events_shape (tts : List Char → List (List Int))
    (st : TurnState) (c : List Char) :
    ∀ e ∈ (agentChunkStep tts st c).2.1,
      e = Event.aiResponseTextStart ∨ e = Event.aiResponseSpeechStart ∨
      (∃ s, e = Event.aiResponseTextDelta s) ∨
      (∃ b, e = Event.aiResponseSpeechDelta b) := by
  intro e he
  rcases hm : lastEndingIdx (st.textBuffer ++ c) with _ | i
  · by_cases hf : st.firstResponseChunk <;>
      simp [agentChunkStep, hm, hf] at he <;> simp [he]
  · by_cases hf : st.firstResponseChunk <;> by_cases hs : st.firstSpeechChunk <;>
      by_cases hemp : ((st.textBuffer ++ c).take (i + 1)).isEmpty <;>
      simp [agentChunkStep, hm, hf, hs, hemp] at he <;>
      rcases he with he | he | he | he <;> simp_all <;> tauto

/-- The whole chunk loop inserts no end event. -/
theorem runTurnChunks_events_shape (tts : List Char → List (List Int)) :
    ∀ (cs : List (List Char)) (st : TurnState),
      ∀ e ∈ (runTurnChunks tts st cs).2.1,
        e = Event.aiResponseTextStart ∨ e = Event.aiResponseSpeechStart ∨
        (∃ s, e = Event.aiResponseTextDelta s) ∨
        (∃ b, e = Event.aiResponseSpeechDelta b) := by
  intro cs
  induction cs with
  | nil => intro st e he; simp [runTurnChunks] at he
  | cons c cs ih =>
    intro st e he
    simp only [runTurnChunks, List.mem_append] at he
    rcases he with he | he
    · exact agentChunkStep_events_shape tts st c e he
    · exact ih _ e he

/-- The chunk loop by itself never emits ai.response.text.end or
ai.response.speech.end. -/
theorem runTurnChunks_no_end (tts : List Char → List (List Int))
    (cs : List (List Char)) (st : TurnState) :
    Event.aiResponseTextEnd ∉ (runTurnChunks tts st cs).2.1 ∧
    Event.aiResponseSpeechEnd ∉ (runTurnChunks tts st cs).2.1 := by
  constructor <;>
  · intro hmem
    rcases runTurnChunks_events_shape tts cs st _ hmem with h | h | ⟨s, h⟩ | ⟨b, h⟩ <;>
      simp at h

/-- When the stream raises, the turn ends right after the loop events; the
end-event epilogue is never reached. -/
theorem runAgentTurn_raises (tts : List Char → List (List Int)) (t : TurnInput)
    (h : t.agentRaises = true) :
    runAgentTurn tts t =
      (Event.transcriptionText t.transcript
         :: (runTurnChunks tts ⟨[], true, true⟩ t.chunks).2.1,
       (runTurnChunks tts ⟨[], true, true⟩ t.chunks).2.2, false) := by
  simp only [runAgentTurn, h, if_true]

/-- C2 counterexample: one turn whose agent stream raises after yielding one
chunk, followed by a healthy turn.  The claim says the stage emits best-effort
end events and continues with the next Segment; the code emits neither end
event and never processes the second turn (its transcript event is absent). -/
theorem agent_error_no_end_counterexample :
    generateAgentResponse (fun _ => [[7]])
        [⟨"a".data, ["x".data], true⟩, ⟨"b".data, [], false⟩] =
      [Event.transcriptionText "a".data, Event.aiResponseTextStart] ∧
    Event.aiResponseTextEnd ∉
      generateAgentResponse (fun _ => [[7]])
        [⟨"a".data, ["x".data], true⟩, ⟨"b".data, [], false⟩] ∧
    Event.aiResponseSpeechEnd ∉
      generateAgentResponse (fun _ => [[7]])
        [⟨"a".data, ["x".data], true⟩, ⟨"b".data, [], false⟩] ∧
    Event.transcriptionText "b".data ∉
      generateAgentResponse (fun _ => [[7]])
        [⟨"a".data, ["x".data], true⟩, ⟨"b".data, [], false⟩] := by
  decide

/-- C2 (amended): when the agent stream (or a TTS stream inside the loop)
raises during a turn, the exception escapes the per-turn body to the
task-level handler: the events emitted are exactly the transcript event plus
the loop events so far, no ai.response.text.end or ai.response.speech.end is
emitted for that turn, and no later Segment is processed by the stage. -/
theorem agent_stream_error_terminates_task (tts : List Char → List (List Int))
    (t : TurnInput) (rest : List TurnInput) (h : t.agentRaises = true) :
    generateAgentResponse tts (t :: rest) = (runAgentTurn tts t).1 ∧
    Event.aiResponseTextEnd ∉ (runAgentTurn tts t).1 ∧
    Event.aiResponseSpeechEnd ∉ (runAgentTurn tts t).1 := by
  have hr := runAgentTurn_raises tts t h
  refine ⟨?_, ?_, ?_⟩
  · simp [generateAgentResponse, hr]
  · rw [hr]
    simp only [List.mem_cons]
    rintro (hc | hc)
    · simp at hc
    · exact (runTurnChunks_no_end tts t.chunks ⟨[], true, true⟩).1 hc
  · rw [hr]
    simp only [List.mem_cons]
    rintro (hc | hc)
    · simp at hc
    · exact (runTurnChunks_no_end tts t.chunks ⟨[], true, true⟩).2 hc

/-- Witness for `agent_stream_error_terminates_task` at a concrete raising
turn followed by a healthy turn. -/
theorem agent_stream_error_terminates_task_witness :
    generateAgentResponse (fun _ => [[7]])
        ((⟨"a".data, ["x".data], true⟩ : TurnInput) :: [⟨"b".data, [], false⟩]) =
      (runAgentTurn (fun _ => [[7]]) ⟨"a".data, ["x".data], true⟩).1 ∧
    Event.aiResponseTextEnd ∉
      (runAgentTurn (fun _ => [[7]]) ⟨"a".data, ["x".data], true⟩).1 ∧
    Event.aiResponseSpeechEnd ∉
      (runAgentTurn (fun _ => [[7]]) ⟨"a".data, ["x".data], true⟩).1 :=
  agent_stream_error_terminates_task (fun _ => [[7]]) ⟨"a".data, ["x".data], true⟩
    [⟨"b".data, [], false⟩] rfl

/-- C7: the agent driver splits the rolling buffer at the rightmost
sentence-ending character, passing exactly the split-off prefix to one TTS
invocation and keeping the remainder as the new buffer; and on the chunk
sequence of the claim the turn produces text deltas "Hi there!" then
" How are you?" in order, two TTS invocations (one per sentence), and exactly
one ai.response.speech.start, placed before the first speech delta. -/
theorem agent_sentence_split_and_streaming (tts : List Char → List (List Int))
    (st : TurnState) (c : List Char) :
    ((agentChunkStep tts st c).2.2 =
      match lastEndingIdx (st.textBuffer ++ c) with
      | none => []
      | some i => [(st.textBuffer ++ c).take (i + 1)]) ∧
    ((agentChunkStep tts st c).1.textBuffer =
      match lastEndingIdx (st.textBuffer ++ c) with
      | none => st.textBuffer ++ c
      | some i => (st.textBuffer ++ c).drop (i + 1)) ∧
    (runAgentTurn (fun s => [s.map (fun ch => (ch.toNat : Int))])
        ⟨"Hello.".data,
         ["Hi".data, " there".data, "! How".data, " are".data, " you?".data],
         false⟩ =
      ([Event.transcriptionText "Hello.".data,
        Event.aiResponseTextStart,
        Event.aiResponseSpeechStart,
        Event.aiResponseTextDelta "Hi there!".data,
        Event.aiResponseSpeechDelta ("Hi there!".data.map (fun ch => (ch.toNat : Int))),
        Event.aiResponseTextDelta " How are you?".data,
        Event.aiResponseSpeechDelta
          (" How are you?".data.map (fun ch => (ch.toNat : Int))),
        Event.aiResponseTextEnd,
        Event.aiResponseSpeechEnd],
       ["Hi there!".data, " How are you?".data], true)) ∧
    ((runAgentTurn (fun s => [s.map (fun ch => (ch.toNat : Int))])
        ⟨"Hello.".data,
         ["Hi".data, " there".data, "! How".data, " are".data, " you?".data],
         false⟩).1.count Event.aiResponseSpeechStart = 1) := by
  refine ⟨?_, ?_, by decide, by decide⟩
  · rcases hm : lastEndingIdx (st.textBuffer ++ c) with _ | i
    · simp [agentChunkStep, hm]
    · have hlt := lastEndingIdx_lt _ _ hm
      have hne : ((st.textBuffer ++ c).take (i + 1)).isEmpty = false := by
        cases hl : (st.textBuffer ++ c).take (i + 1) with
        | nil =>
          exfalso
          have h2 := congrArg List.length hl
          rw [List.length_take] at h2
          simp only [List.length_nil] at h2
          omega
        | cons a as => rfl
      simp [agentChunkStep, hm, hne]
  · rcases hm : lastEndingIdx (st.textBuffer ++ c) with _ | i
    · simp [agentChunkStep, hm]
    · have hlt := lastEndingIdx_lt _ _ hm
      have hne : ((st.textBuffer ++ c).take (i + 1)).isEmpty = false := by
        cases hl : (st.textBuffer ++ c).take (i + 1) with
        | nil =>
          exfalso
          have h2 := congrArg List.length hl
          rw [List.length_take] at h2
          simp only [List.length_nil] at h2
          omega
        | cons a as => rfl
      simp [agentChunkStep, hm, hne]

/-- Witness for `agent_sentence_split_and_streaming` at a concrete buffer and
chunk with a sentence ending. -/
theorem agent_sentence_split_and_streaming_witness :
    (agentChunkStep (fun _ => [[7]]) ⟨"Hi".data, false, false⟩ "!".data).2.2 =
      (match lastEndingIdx (("Hi".data : List Char) ++ "!".data) with
       | none => []
       | some i => [(("Hi".data : List Char) ++ "!".data).take (i + 1)]) :=
  (agent_sentence_split_and_streaming (fun _ => [[7]])
    ⟨"Hi".data, false, false⟩ "!".data).1

/-- C8: GroqSTT.stt_stream yields exactly one chunk holding the full
transcript; OpenAISTT.stt_stream with the non-streaming whisper-1 model
yields the full transcript and then, because the early branch does not
return, also issues the streaming request and yields whatever it produces -
more than one chunk. -/
theorem stt_whisper_fallthrough :
    groqSttStream "hello" = ["hello"] ∧
    openaiSttStream "whisper-1" "hello" ["delta"] = ["hello", "delta"] ∧
    (openaiSttStream "whisper-1" "hello" ["delta"]).length ≠ 1 := by
  refine ⟨rfl, rfl, by decide⟩

/-- The consumer-observed items followed by the remaining queue contents form
a sublist, in order, of the items offered by the producer: FIFO modulo
drop-newest. -/
theorem queueRun_sublist (cap : Nat) :
    ∀ (ops : List (QOp Nat)) (q out E : List Nat),
      (out ++ q).Sublist E →
      ((queueRun cap (q, out) ops).2 ++ (queueRun cap (q, out) ops).1).Sublist
        (E ++ enqueuedItems ops) := by
  intro ops
  induction ops with
  | nil =>
    intro q out E h
    simpa [queueRun, enqueuedItems] using h
  | cons op ops ih =>
    intro q out E h
    cases op with
    | enq x =>
      have hrun : queueRun cap (q, out) (QOp.enq x :: ops)
          = queueRun cap (addQueueNoWait cap q x, out) ops := rfl
      have henq : enqueuedItems (QOp.enq x :: ops) = x :: enqueuedItems ops := rfl
      rw [hrun, henq]
      have hstep : (out ++ addQueueNoWait cap q x).Sublist (E ++ [x]) := by
        unfold addQueueNoWait
        split
        · exact h.trans (List.sublist_append_left E [x])
        · rw [← List.append_assoc]
          exact List.Sublist.append h (List.Sublist.refl [x])
      have := ih (addQueueNoWait cap q x) out (E ++ [x]) hstep
      simpa [List.append_assoc] using this
    | deq =>
      cases q with
      | nil =>
        have hrun : queueRun cap (([] : List Nat), out) (QOp.deq :: ops)
            = queueRun cap ([], out) ops := rfl
        have hdeq : enqueuedItems (QOp.deq :: ops) = enqueuedItems ops := rfl
        rw [hrun, hdeq]
        exact ih [] out E h
      | cons y ys =>
        have hrun : queueRun cap ((y :: ys : List Nat), out) (QOp.deq :: ops)
            = queueRun cap (ys, out ++ [y]) ops := rfl
        have hdeq : enqueuedItems (QOp.deq :: ops) = enqueuedItems ops := rfl
        rw [hrun, hdeq]
        exact ih ys (out ++ [y]) E (by simpa [List.append_assoc] using h)

/-- C9: offering an item to a full 60-capacity queue leaves the queue
unchanged with no caller-visible error; otherwise the item is appended; and
over any operation history the consumer observes the producer insertion order
modulo drops (the observed items plus queue remainder form an ordered sublist
of the offered items, and the dropped item is always the newly offered
one). -/
theorem queue_drop_newest_fifo (q : List Nat) (x : Nat) (ops : List (QOp Nat)) :
    (MAX_QUEUE_SIZE ≤ q.length → addQueueNoWait MAX_QUEUE_SIZE q x = q) ∧
    (q.length < MAX_QUEUE_SIZE → addQueueNoWait MAX_QUEUE_SIZE q x = q ++ [x]) ∧
    ((queueRun MAX_QUEUE_SIZE ([], []) ops).2
        ++ (queueRun MAX_QUEUE_SIZE ([], []) ops).1).Sublist (enqueuedItems ops) := by
  refine ⟨?_, ?_, ?_⟩
  · intro h
    simp [addQueueNoWait, h]
  · intro h
    simp [addQueueNoWait, Nat.not_le.mpr h]
  · have := queueRun_sublist MAX_QUEUE_SIZE ops [] [] [] (List.Sublist.refl [])
    simpa using this

/-- Witness for `queue_drop_newest_fifo`: a saturated queue drops the offered
item, a short queue appends it, and a small history is FIFO. -/
theorem queue_drop_newest_fifo_witness :
    addQueueNoWait MAX_QUEUE_SIZE (List.replicate 60 (0 : Nat)) 5
      = List.replicate 60 0 ∧
    addQueueNoWait MAX_QUEUE_SIZE ([1, 2] : List Nat) 5 = [1, 2, 5] ∧
    ((queueRun MAX_QUEUE_SIZE ([], []) [QOp.enq (1 : Nat), QOp.deq]).2
        ++ (queueRun MAX_QUEUE_SIZE ([], []) [QOp.enq (1 : Nat), QOp.deq]).1).Sublist
      (enqueuedItems [QOp.enq (1 : Nat), QOp.deq]) :=
  ⟨(queue_drop_newest_fifo (List.replicate 60 0) 5 []).1 (by decide),
   (queue_drop_newest_fifo [1, 2] 5 []).2.1 (by decide),
   (queue_drop_newest_fifo [] 0 [QOp.enq 1, QOp.deq]).2.2⟩

/-- C10: a binary message of exactly 10 bytes passes the ingest length check
and enqueues an AudioFrame with an empty payload; on that payload the
resampler evaluates np.max of an empty array and raises instead of returning
an empty sample array, so the exception branch of the VADSegmenter per-frame
procedure (buffer cleared, error re-raised) is reached from the public
interface, for every resampling routine, buffer state and VAD oracle
output. -/
theorem empty_payload_reaches_vad_error (f : List Int → Nat → List Int)
    (buffer : List Int) (ts : List SpeechRange) :
    ¬ (([0, 1, 0, 0, 0, 0, 0, 0, 5, 220] : List Nat).length < 10) ∧
    (ingestStep 10 initIngestState (.binary [0, 1, 0, 0, 0, 0, 0, 0, 5, 220])).q1
      = [{ flag := 1, timestamp := 1, audio := [] }] ∧
    audio_resampler f [] 3
      = .error "zero-size array to reduction operation maximum which has no identity" ∧
    processAudioChunkCaught f ⟨8000, 320000, 8000⟩ 3 buffer [] ts
      = .error ("zero-size array to reduction operation maximum which has no identity",
                ([] : List Int)) := by
  refine ⟨by decide, by decide, rfl, rfl⟩

/-- Witness for `empty_payload_reaches_vad_error` at a concrete resampler and
state. -/
theorem empty_payload_reaches_vad_error_witness :
    audio_resampler (fun l _ => l) [] 3
      = .error "zero-size array to reduction operation maximum which has no identity" ∧
    processAudioChunkCaught (fun l _ => l) ⟨8000, 320000, 8000⟩ 3 [] [] []
      = .error ("zero-size array to reduction operation maximum which has no identity",
                ([] : List Int)) :=
  ⟨(empty_payload_reaches_vad_error (fun l _ => l) [] []).2.2.1,
   (empty_payload_reaches_vad_error (fun l _ => l) [] []).2.2.2⟩
